import Mathlib

/-!
# A verification model of grafanalib's core (`grafanalib/core.py`)

This file is a shallow embedding, in Lean 4, of the algorithmic core of the
grafanalib dashboard-building library: the dictionary-merging function
`union`, the row layout balancer `_balance_panels` /
`_balance_visualizations`, the panel-ID assignment pass
`Dashboard.auto_panel_ids`, the Y-axes compatibility shim `to_y_axes`, and
the `to_json_data` rendering methods of `Panel` and the visualization types
(`Graph`, `Text`, `AlertList`, `SingleStat`, `Table`).

Python dictionaries are modelled as insertion-ordered association lists
(`List (K × V)`); rendered JSON values are modelled by the inductive type
`JValue`.  Machine integers are `Int` (Python integers are unbounded, so no
wrap-around modelling is needed).  `math.ceil` applied to an exact division
of integers is modelled by `ceilDiv`.
-/

namespace Grafanalib

/-- Rendered JSON-like values: the document shapes grafanalib emits.
Nested component objects whose internal structure is irrelevant to the
properties proved here (targets, legends, grids, tooltips, ...) are carried
as opaque `JValue` payloads. -/
inductive JValue : Type where
  | nul : JValue
  | b : Bool → JValue
  | i : Int → JValue
  | s : String → JValue
  | arr : List JValue → JValue
  | obj : List (String × JValue) → JValue

/-- Render an optional integer: Python `None` renders as JSON null. -/
def optInt : Option Int → JValue
  | none => .nul
  | some n => .i n

/-- Render an optional string: Python `None` renders as JSON null. -/
def optStr : Option String → JValue
  | none => .nul
  | some t => .s t

section Dict

variable {K V : Type} [DecidableEq K]

/-- Setting a key in a Python dict: if the key is present, its value is
replaced in place (insertion order kept); otherwise the pair is appended. -/
def dictSet (r : List (K × V)) (k : K) (v : V) : List (K × V) :=
  if r.any (fun p => p.1 = k) then
    r.map (fun p => if p.1 = k then (k, v) else p)
  else
    r ++ [(k, v)]

/-- Python's `ret.update(d)`: every key of `d` is set into `ret`, in order. -/
def dictUpdate (r d : List (K × V)) : List (K × V) :=
  d.foldl (fun acc p => dictSet acc p.1 p.2) r

/-- `union` from `grafanalib/core.py`: merge dictionaries, keys in later
dictionaries overwriting keys in earlier ones; an empty list yields the
empty dictionary.  (`ret = dict(dicts[0])` then `ret.update(d)` for each
remaining `d`.) -/
def union : List (List (K × V)) → List (K × V)
  | [] => []
  | d :: rest => rest.foldl dictUpdate d

/-- The keys of a dict. -/
def keys (d : List (K × V)) : List K := d.map Prod.fst

/-- Dictionary lookup: the value of the first pair with the given key. -/
def dlookup (k : K) : List (K × V) → Option V
  | [] => none
  | p :: ps => if p.1 = k then some p.2 else dlookup k ps

/-- Specification-side description of last-wins merging: the value for a
key is the one found in the last dictionary of the sequence containing that
key. -/
def lookupLast : List (List (K × V)) → K → Option V
  | [], _ => none
  | d :: rest, k =>
    match lookupLast rest k with
    | some v => some v
    | none => dlookup k d

end Dict

/-- `TOTAL_SPAN` from `grafanalib/core.py`: the fixed width of a row. -/
def TOTAL_SPAN : Int := 12

/-- `DEFAULT_ROW_HEIGHT = Pixels(250)`. -/
structure Pixels where
  num : Int
deriving DecidableEq

def DEFAULT_ROW_HEIGHT : Pixels := ⟨250⟩

/-- The common `Panel` value type of `grafanalib/core.py` (title, optional
id, optional span, cosmetic flags).  Panel ids are modelled as optional
integers; `links` is an opaque rendered payload. -/
structure Panel where
  title : String
  id : Option Int := none
  span : Option Int := none
  transparent : Bool := false
  editable : Bool := true
  links : JValue := .arr []
  height : Option Int := none
  description : Option String := none

/-- `Panel.to_json_data`. -/
def Panel.to_json_data (p : Panel) : List (String × JValue) :=
  [ ("title", .s p.title),
    ("id", optInt p.id),
    ("links", p.links),
    ("span", optInt p.span),
    ("transparent", .b p.transparent),
    ("editable", .b p.editable),
    ("height", optInt p.height),
    ("description", optStr p.description) ]

/-- Ceiling of the exact division `a / b` (for positive `b`), the value
`math.ceil((TOTAL_SPAN - allotted_spans) / n)` computes on the integer
inputs that occur here. -/
def ceilDiv (a b : Int) : Int := -((-a).fdiv b)

/-- `allotted_spans` in `_balance_panels`: the sum of
`panel.span if panel.span else 0` over the panels (an unset span, like a
zero span, contributes 0). -/
def allotted_spans (panels : List Panel) : Int :=
  (panels.map (fun p => p.span.getD 0)).sum

/-- `no_span_set` in `_balance_panels`: the panels whose span is unset. -/
def no_span_set (panels : List Panel) : List Panel :=
  panels.filter (fun p => p.span.isNone)

/-- `auto_span` in `_balance_panels`:
`math.ceil((TOTAL_SPAN - allotted_spans) / (len(no_span_set) or 1))`. -/
def auto_span (panels : List Panel) : Int :=
  ceilDiv (TOTAL_SPAN - allotted_spans panels)
    (if (no_span_set panels).length = 0 then 1 else ((no_span_set panels).length : Int))

/-- `_balance_panels` from `grafanalib/core.py`: resize panels so they are
evenly spaced. -/
def _balance_panels (panels : List Panel) : List Panel :=
  panels.map (fun p => if p.span.isNone then { p with span := some (auto_span panels) } else p)

/-- A visualization as seen by the layout/ID machinery: something with a
`panel` attribute (the `HasPanel` protocol).  The rest of the visualization
is carried as an opaque payload; `attr.evolve(viz, panel=...)` replaces the
panel and keeps the rest. -/
structure HasPanel where
  panel : Panel
  rest : JValue := .nul

/-- `_balance_visualizations` from `grafanalib/core.py`: balance the
wrapped panels and re-attach them to their visualizations. -/
def _balance_visualizations (vizs : List HasPanel) : List HasPanel :=
  let panels := _balance_panels (vizs.map (fun v => v.panel))
  (vizs.zip panels).map (fun vp => { vp.1 with panel := vp.2 })

/-- The `Row` value type.  In the Python source the `panels` attribute has
`converter=_balance_visualizations`, so every construction (and every
`attr.evolve` that touches `panels`) runs the balancer; `mkRow` below is
the constructor. -/
structure Row where
  panels : List HasPanel := []
  collapse : Bool := false
  editable : Bool := true
  height : Pixels := DEFAULT_ROW_HEIGHT
  showTitle : Option Bool := none
  title : Option String := none
  repeatOf : Option JValue := none

/-- Constructing a `Row`: the attrs converter `_balance_visualizations`
runs over the supplied panels. -/
def mkRow (panels : List HasPanel := []) (collapse : Bool := false)
    (editable : Bool := true) (height : Pixels := DEFAULT_ROW_HEIGHT)
    (showTitle : Option Bool := none) (title : Option String := none)
    (repeatOf : Option JValue := none) : Row :=
  { panels := _balance_visualizations panels, collapse := collapse,
    editable := editable, height := height, showTitle := showTitle,
    title := title, repeatOf := repeatOf }

/-- `Row.iter_panels`: the wrapped panels, in order. -/
def Row.iter_panels (r : Row) : List Panel :=
  r.panels.map (fun p => p.panel)

/-- The `Dashboard` value type: a title, rows, and global settings (the
settings irrelevant to the claims are carried as opaque payloads with
their defaults). -/
structure Dashboard where
  title : String
  rows : List Row
  annotations : JValue := .obj []
  editable : Bool := true
  gnetId : Option JValue := none
  hideControls : Bool := false
  id : Option Int := none
  inputs : JValue := .arr []
  links : JValue := .arr []
  refresh : JValue := .s "10s"
  schemaVersion : Int := 12
  sharedCrosshair : Bool := false
  style : JValue := .s "dark"
  tags : JValue := .arr []
  templating : JValue := .obj []
  time : JValue := .obj []
  timePicker : JValue := .obj []
  timezone : JValue := .s "utc"
  version : Int := 0
  uid : Option JValue := none

/-- `Dashboard.iter_panels`: all panels, rows in order, panels within each
row in order. -/
def Dashboard.iter_panels (d : Dashboard) : List Panel :=
  (d.rows.map Row.iter_panels).flatten

/-- Python truthiness of a panel id (`if panel.id`): `None` and `0` are
falsy, every other integer is truthy. -/
def truthyId : Option Int → Bool
  | none => false
  | some n => n != 0

/-- The set `ids = {panel.id for panel in self.iter_panels() if panel.id}`
of already-assigned (truthy) panel ids, as a list. -/
def usedIds (d : Dashboard) : List Int :=
  ((d.iter_panels).filter (fun p => truthyId p.id)).map (fun p => p.id.getD 0)

/-- An upper bound on the nonnegative members of `ids` (used to provide
enough fuel to the generator search). -/
def idBound (ids : List Int) : Nat :=
  ids.foldr (fun x m => max x.toNat m) 0

/-- Fuel-driven search for the first candidate `c, c+1, ...` not in `ids`:
the filtering generator `(i for i in itertools.count(1) if i not in ids)`
viewed from its current position `c`. -/
def nextFreeAux (ids : List Int) : Nat → Nat → Nat
  | 0, c => c
  | fuel + 1, c => if (c : Int) ∈ ids then nextFreeAux ids fuel (c + 1) else c

/-- `next(auto_ids)` when the generator's position is `c`: the least
`n ≥ c` with `n ∉ ids` (the fuel `idBound ids + 1` is always sufficient,
as proved below). -/
def nextFree (ids : List Int) (c : Nat) : Nat :=
  nextFreeAux ids (idBound ids + 1) c

/-- The stateful `set_id` mapped over a list of panels in order: a panel
with a truthy id is passed through, every other panel receives
`next(auto_ids)`; the second component is the generator's position after
the pass. -/
def setIdsPanels (ids : List Int) : Nat → List Panel → List Panel × Nat
  | c, [] => ([], c)
  | c, p :: ps =>
    if truthyId p.id then
      let r := setIdsPanels ids c ps
      (p :: r.1, r.2)
    else
      let v := nextFree ids c
      let r := setIdsPanels ids (v + 1) ps
      ({ p with id := some (v : Int) } :: r.1, r.2)

/-- `Row.map_panels` applied to the stateful `set_id`: map over
`iter_panels` in order, re-attach the new panels with `attr.evolve`, and
rebuild the row with `attr.evolve(self, panels=with_panels)` — which runs
the `_balance_visualizations` converter again. -/
def Row.set_ids (ids : List Int) (c : Nat) (r : Row) : Row × Nat :=
  let pr := setIdsPanels ids c r.iter_panels
  let with_panels := (r.panels.zip pr.1).map (fun pp => { pp.1 with panel := pp.2 })
  ({ r with panels := _balance_visualizations with_panels }, pr.2)

/-- The stateful pass over the rows of a dashboard, in order. -/
def setIdsRows (ids : List Int) : Nat → List Row → List Row × Nat
  | c, [] => ([], c)
  | c, r :: rs =>
    let r1 := Row.set_ids ids c r
    let r2 := setIdsRows ids r1.2 rs
    (r1.1 :: r2.1, r2.2)

/-- `Dashboard.auto_panel_ids`: give unique ids to all the panels without
ids; panels which had an id keep it, all others receive one from the
generator `(i for i in itertools.count(1) if i not in ids)`. -/
def Dashboard.auto_panel_ids (d : Dashboard) : Dashboard :=
  let ids := usedIds d
  { d with rows := (setIdsRows ids 1 d.rows).1 }

/-- Render an optional opaque payload: Python `None` renders as null. -/
def optJ : Option JValue → JValue
  | none => .nul
  | some v => v

/-- A single Y axis (`YAxis`); field values irrelevant to the claims are
opaque payloads with the source's defaults. -/
structure YAxis where
  decimals : JValue := .nul
  format : JValue := .nul
  label : JValue := .nul
  logBase : JValue := .i 1
  max : JValue := .nul
  min : JValue := .i 0
  showAxis : Bool := true

/-- The pair of Y axes on a graph (`YAxes`). -/
structure YAxes where
  left : YAxis := { format := .s "short" }
  right : YAxis := { format := .s "short" }

/-- `YAxis.to_json_data`. -/
def YAxis.to_json_data (y : YAxis) : List (String × JValue) :=
  [ ("decimals", y.decimals),
    ("format", y.format),
    ("label", y.label),
    ("logBase", y.logBase),
    ("max", y.max),
    ("min", y.min),
    ("show", .b y.showAxis) ]

/-- `YAxes.to_json_data`: the two axes as a list. -/
def YAxes.to_json_data (ys : YAxes) : JValue :=
  .arr [.obj ys.left.to_json_data, .obj ys.right.to_json_data]

/-- The possible runtime shapes of the argument of `to_y_axes`: a `YAxes`
value, a legacy list/tuple (of `YAxis` values), or any other value. -/
inductive YAxesArg : Type where
  | yaxes : YAxes → YAxesArg
  | listArg : List YAxis → YAxesArg
  | otherArg : JValue → YAxesArg

/-- `to_y_axes` from `grafanalib/core.py`: pass `YAxes` through, convert a
two-element legacy list/tuple (with a `DeprecationWarning`, modelled as the
`Bool` in the result), and raise `ValueError` otherwise.  `Except.error`
models the raised error, and the `Bool` is true exactly when the
deprecation warning is emitted. -/
def to_y_axes : YAxesArg → Except String (YAxes × Bool)
  | .yaxes y => .ok (y, false)
  | .otherArg _ =>
    .error "Y axes must be either YAxes or a list of two values"
  | .listArg xs =>
    match xs with
    | [a, b] => .ok ({ left := a, right := b }, true)
    | _ => .error ("Must specify exactly two YAxes, got " ++ toString xs.length)

/-- The `Graph` visualization: wraps a `Panel` plus graph-specific fields.
Fields whose internal structure is irrelevant here (targets, legend, grid,
tooltip, axes, ...) are opaque rendered payloads. -/
structure Graph where
  panel : Panel
  targets : JValue
  aliasColors : JValue := .obj []
  bars : Bool := false
  dataSource : Option JValue := none
  error : Bool := false
  fill : Int := 1
  grid : JValue := .obj []
  isNew : Bool := true
  legend : JValue := .obj []
  lines : Bool := true
  lineWidth : JValue := .i 2
  minSpan : Option JValue := none
  nullPointMode : JValue := .s "connected"
  percentage : Bool := false
  pointRadius : JValue := .i 5
  points : Bool := false
  renderer : JValue := .s "flot"
  repeatOf : Option JValue := none
  seriesOverrides : JValue := .arr []
  stack : Bool := false
  steppedLine : Bool := false
  timeFrom : Option JValue := none
  timeShift : Option JValue := none
  tooltip : JValue := .obj []
  xAxis : JValue := .obj []
  yAxes : YAxes := {}
  alert : Option JValue := none

/-- The `graph_object` dictionary built inside `Graph.to_json_data`. -/
def Graph.graph_object (g : Graph) : List (String × JValue) :=
  [ ("aliasColors", g.aliasColors),
    ("bars", .b g.bars),
    ("datasource", optJ g.dataSource),
    ("error", .b g.error),
    ("fill", .i g.fill),
    ("grid", g.grid),
    ("isNew", .b g.isNew),
    ("legend", g.legend),
    ("lines", .b g.lines),
    ("linewidth", g.lineWidth),
    ("minSpan", optJ g.minSpan),
    ("nullPointMode", g.nullPointMode),
    ("percentage", .b g.percentage),
    ("pointradius", g.pointRadius),
    ("points", .b g.points),
    ("renderer", g.renderer),
    ("repeat", optJ g.repeatOf),
    ("seriesOverrides", g.seriesOverrides),
    ("stack", .b g.stack),
    ("steppedLine", .b g.steppedLine),
    ("targets", g.targets),
    ("timeFrom", optJ g.timeFrom),
    ("timeShift", optJ g.timeShift),
    ("tooltip", g.tooltip),
    ("xaxis", g.xAxis),
    ("yaxes", g.yAxes.to_json_data) ]

/-- `alerts = {'alert': self.alert} if self.alert else {}`. -/
def Graph.alerts (g : Graph) : List (String × JValue) :=
  match g.alert with
  | some a => [("alert", a)]
  | none => []

/-- `Graph.to_json_data`: the union of the panel's fields, the graph
fields, and the conditional alert block. -/
def Graph.to_json_data (g : Graph) : List (String × JValue) :=
  union [g.panel.to_json_data, g.graph_object, g.alerts]

/-- The `Text` visualization. -/
structure Text where
  panel : Panel
  content : JValue
  error : Bool := false
  mode : JValue := .s "markdown"

/-- The type-specific dictionary of a `Text` panel. -/
def Text.own_fields (t : Text) : List (String × JValue) :=
  [ ("content", t.content), ("error", .b t.error), ("mode", t.mode) ]

/-- `Text.to_json_data`. -/
def Text.to_json_data (t : Text) : List (String × JValue) :=
  union [t.panel.to_json_data, t.own_fields]

/-- The `AlertList` visualization. -/
structure AlertList where
  panel : Panel
  limit : JValue := .i 10
  onlyAlertsOnDashboard : Bool := true
  showAlerts : JValue := .s "current"
  sortOrder : JValue := .i 1
  stateFilter : JValue := .arr []

/-- The type-specific dictionary of an `AlertList` panel. -/
def AlertList.own_fields (a : AlertList) : List (String × JValue) :=
  [ ("limit", a.limit),
    ("onlyAlertsOnDashboard", .b a.onlyAlertsOnDashboard),
    ("show", a.showAlerts),
    ("sortOrder", a.sortOrder),
    ("stateFilter", a.stateFilter) ]

/-- `AlertList.to_json_data`. -/
def AlertList.to_json_data (a : AlertList) : List (String × JValue) :=
  union [a.panel.to_json_data, a.own_fields]

/-- The `SingleStat` visualization. -/
structure SingleStat where
  panel : Panel
  dataSource : Option JValue := none
  targets : JValue := .arr []
  cacheTimeout : Option JValue := none
  colors : JValue := .arr []
  colorBackground : Bool := false
  colorValue : Bool := false
  decimals : Option JValue := none
  format : JValue := .s "none"
  gauge : JValue := .obj []
  hideTimeOverride : Bool := false
  interval : Option JValue := none
  mappingType : JValue := .i 1
  mappingTypes : JValue := .arr []
  maxDataPoints : JValue := .i 100
  minSpan : Option JValue := none
  nullText : Option JValue := none
  nullPointMode : JValue := .s "connected"
  postfixValue : JValue := .s ""
  postfixFontSize : JValue := .s "50%"
  prefixValue : JValue := .s ""
  prefixFontSize : JValue := .s "50%"
  rangeMaps : JValue := .arr []
  repeatOf : Option JValue := none
  sparkline : JValue := .obj []
  thresholds : JValue := .s ""
  valueFontSize : JValue := .s "80%"
  valueName : JValue := .s "avg"
  valueMaps : JValue := .arr []
  timeFrom : Option JValue := none

/-- The type-specific dictionary of a `SingleStat` panel. -/
def SingleStat.own_fields (s : SingleStat) : List (String × JValue) :=
  [ ("cacheTimeout", optJ s.cacheTimeout),
    ("colorBackground", .b s.colorBackground),
    ("colorValue", .b s.colorValue),
    ("colors", s.colors),
    ("datasource", optJ s.dataSource),
    ("decimals", optJ s.decimals),
    ("format", s.format),
    ("gauge", s.gauge),
    ("interval", optJ s.interval),
    ("hideTimeOverride", .b s.hideTimeOverride),
    ("mappingType", s.mappingType),
    ("mappingTypes", s.mappingTypes),
    ("maxDataPoints", s.maxDataPoints),
    ("minSpan", optJ s.minSpan),
    ("nullPointMode", s.nullPointMode),
    ("nullText", optJ s.nullText),
    ("postfix", s.postfixValue),
    ("postfixFontSize", s.postfixFontSize),
    ("prefix", s.prefixValue),
    ("prefixFontSize", s.prefixFontSize),
    ("rangeMaps", s.rangeMaps),
    ("repeat", optJ s.repeatOf),
    ("sparkline", s.sparkline),
    ("targets", s.targets),
    ("thresholds", s.thresholds),
    ("valueFontSize", s.valueFontSize),
    ("valueMaps", s.valueMaps),
    ("valueName", s.valueName),
    ("timeFrom", optJ s.timeFrom) ]

/-- `SingleStat.to_json_data`. -/
def SingleStat.to_json_data (s : SingleStat) : List (String × JValue) :=
  union [s.panel.to_json_data, s.own_fields]

/-- The `Table` visualization. -/
structure Table where
  panel : Panel
  dataSource : Option JValue := none
  targets : JValue := .arr []
  columns : JValue := .arr []
  fontSize : JValue := .s "100%"
  hideTimeOverride : Bool := false
  minSpan : Option JValue := none
  pageSize : Option JValue := none
  repeatOf : Option JValue := none
  scroll : Bool := true
  showHeader : Bool := true
  sort : JValue := .obj []
  styles : JValue := .arr []
  timeFrom : Option JValue := none
  transform : JValue := .s "timeseries_to_columns"

/-- The type-specific dictionary of a `Table` panel. -/
def Table.own_fields (t : Table) : List (String × JValue) :=
  [ ("columns", t.columns),
    ("datasource", optJ t.dataSource),
    ("fontSize", t.fontSize),
    ("hideTimeOverride", .b t.hideTimeOverride),
    ("minSpan", optJ t.minSpan),
    ("pageSize", optJ t.pageSize),
    ("repeat", optJ t.repeatOf),
    ("scroll", .b t.scroll),
    ("showHeader", .b t.showHeader),
    ("sort", t.sort),
    ("styles", t.styles),
    ("targets", t.targets),
    ("timeFrom", optJ t.timeFrom),
    ("transform", t.transform) ]

/-- `Table.to_json_data`. -/
def Table.to_json_data (t : Table) : List (String × JValue) :=
  union [t.panel.to_json_data, t.own_fields]

/-! ## Specification-side definitions

These definitions follow the words of the specification (not the code) and
are compared with the code-derived definitions above. -/

/-- Spec-side ID assignment over a list of panels: every panel lacking an
identifier receives the smallest positive integer not already in the used
set, which then joins the used set; panels with an identifier pass through
unchanged.  Returns the new panels and the grown used set. -/
def specAssignPanels (used : List Int) : List Panel → List Panel × List Int
  | [] => ([], used)
  | p :: ps =>
    if truthyId p.id then
      let r := specAssignPanels used ps
      (p :: r.1, r.2)
    else
      let v := nextFree used 1
      let r := specAssignPanels ((v : Int) :: used) ps
      ({ p with id := some (v : Int) } :: r.1, r.2)

/-- Spec-side ID assignment over rows, in order: each row keeps its
structure and relative panel order, only the wrapped panels' ids change. -/
def specRows (used : List Int) : List Row → List Row × List Int
  | [] => ([], used)
  | r :: rs =>
    let pr := specAssignPanels used r.iter_panels
    let r1 : Row :=
      { r with panels := (r.panels.zip pr.1).map (fun pp => { pp.1 with panel := pp.2 }) }
    let r2 := specRows pr.2 rs
    (r1 :: r2.1, r2.2)

/-- Spec-side `auto_panel_ids`: collect the already-assigned identifiers,
then re-traverse rows in order and panels within each row in order,
assigning to each un-ID'd panel the smallest positive integer not already
used, keeping everything else identical. -/
def specAutoPanelIds (d : Dashboard) : Dashboard :=
  { d with rows := (specRows (usedIds d) d.rows).1 }

/-- Every panel of the dashboard has a concrete (non-auto) span.  This is
an invariant of all dashboards built through the `Row` constructor, whose
converter balances the panels. -/
def allSpansSet (d : Dashboard) : Prop :=
  ∀ p ∈ d.iter_panels, p.span.isSome

instance (d : Dashboard) : Decidable (allSpansSet d) := by
  unfold allSpansSet; infer_instance

/-- Boolean disjointness of two key lists. -/
def keysDisjoint (a b : List String) : Bool :=
  a.all (fun k => !(b.contains k))

/-- The declared keys of a rendered `Panel`. -/
def panelKeysList : List String :=
  ["title", "id", "links", "span", "transparent", "editable", "height", "description"]

/-- The declared keys of `Graph`'s `graph_object` dictionary. -/
def graphObjectKeysList : List String :=
  ["aliasColors", "bars", "datasource", "error", "fill", "grid", "isNew", "legend",
   "lines", "linewidth", "minSpan", "nullPointMode", "percentage", "pointradius",
   "points", "renderer", "repeat", "seriesOverrides", "stack", "steppedLine",
   "targets", "timeFrom", "timeShift", "tooltip", "xaxis", "yaxes"]

/-- The declared type-specific keys of a rendered `Text` panel. -/
def textKeysList : List String := ["content", "error", "mode"]

/-- The declared type-specific keys of a rendered `AlertList` panel. -/
def alertListKeysList : List String :=
  ["limit", "onlyAlertsOnDashboard", "show", "sortOrder", "stateFilter"]

/-- The declared type-specific keys of a rendered `SingleStat` panel. -/
def singleStatKeysList : List String :=
  ["cacheTimeout", "colorBackground", "colorValue", "colors", "datasource",
   "decimals", "format", "gauge", "interval", "hideTimeOverride", "mappingType",
   "mappingTypes", "maxDataPoints", "minSpan", "nullPointMode", "nullText",
   "postfix", "postfixFontSize", "prefix", "prefixFontSize", "rangeMaps",
   "repeat", "sparkline", "targets", "thresholds", "valueFontSize", "valueMaps",
   "valueName", "timeFrom"]

/-- The declared type-specific keys of a rendered `Table` panel. -/
def tableKeysList : List String :=
  ["columns", "datasource", "fontSize", "hideTimeOverride", "minSpan", "pageSize",
   "repeat", "scroll", "showHeader", "sort", "styles", "targets", "timeFrom",
   "transform"]

/-- `r` is the least candidate at or above position `c` that is not a
member of `ids`: what one call of the filtering generator yields. -/
def IsLeastFree (ids : List Int) (c r : Nat) : Prop :=
  c ≤ r ∧ (r : Int) ∉ ids ∧ ∀ m : Nat, c ≤ m → m < r → (m : Int) ∈ ids

/-- The simulation invariant between the implementation's generator
position `c` (over the fixed skip set `ids`) and the specification's
growing used set `u`: among the positive integers, `u` holds exactly the
members of `ids` together with everything below `c`. -/
def GenInv (ids u : List Int) (c : Nat) : Prop :=
  1 ≤ c ∧ ∀ n : Nat, 1 ≤ n → ((n : Int) ∈ u ↔ ((n : Int) ∈ ids ∨ n < c))

/-! ## Concrete example values (used by the worked examples of the claims) -/

/-- A panel with a given span and no other data. -/
def examplePanel (s : Option Int) : Panel := { title := "", span := s }

/-- A panel with a given id and a concrete span. -/
def examplePanelId (i : Option Int) : Panel := { title := "", id := i, span := some 4 }

/-- Wrap a panel as a visualization. -/
def exampleViz (p : Panel) : HasPanel := { panel := p }

/-- A dashboard with one row of panels with ids `[5, None, None]`. -/
def exampleDashboard1 : Dashboard :=
  { title := "",
    rows := [mkRow [exampleViz (examplePanelId (some 5)),
                    exampleViz (examplePanelId none),
                    exampleViz (examplePanelId none)]] }

/-- A dashboard with two rows, each with one un-ID'd panel. -/
def exampleDashboard2 : Dashboard :=
  { title := "",
    rows := [mkRow [exampleViz (examplePanelId none)],
             mkRow [exampleViz (examplePanelId none)]] }

/-- A graph with no alert set. -/
def exampleGraph : Graph := { panel := { title := "" }, targets := .arr [] }

/-! ## Lemmas about dictionaries and `union` -/

theorem dlookup_append {K V : Type} [DecidableEq K] (k : K) (l₁ l₂ : List (K × V)) :
    dlookup k (l₁ ++ l₂) =
      match dlookup k l₁ with
      | some v => some v
      | none => dlookup k l₂ := by
  induction l₁ with
  | nil => simp [dlookup]
  | cons p ps ih =>
    by_cases h : p.1 = k <;> simp [dlookup, h, ih]

theorem any_key_iff_dlookup {K V : Type} [DecidableEq K] (k : K) (r : List (K × V)) :
    r.any (fun p => p.1 = k) = true ↔ (dlookup k r).isSome := by
  induction r with
  | nil => simp [dlookup]
  | cons p ps ih =>
    by_cases h : p.1 = k <;> simp [dlookup, h, ih]

theorem dlookup_map_set {K V : Type} [DecidableEq K] (k k' : K) (v : V) (r : List (K × V)) :
    dlookup k (r.map (fun p => if p.1 = k' then (k', v) else p)) =
      if k' = k then (if (dlookup k' r).isSome then some v else none)
      else dlookup k r := by
  induction r with
  | nil => simp [dlookup]
  | cons p ps ih =>
    by_cases h : p.1 = k'
    · by_cases hk : k' = k
      · subst hk; simp [dlookup, h, ih]
      · have hpk : ¬ p.1 = k := by rw [h]; exact hk
        simp [dlookup, h, hk, hpk, ih]
    · simp only [List.map_cons, if_neg h, dlookup]
      by_cases hpk : p.1 = k
      · have hk : ¬ k' = k := by intro e; exact h (by rw [hpk, e])
        simp [hpk, hk]
      · simp [hpk, ih]

theorem dlookup_dictSet {K V : Type} [DecidableEq K] (k k' : K) (v : V) (r : List (K × V)) :
    dlookup k (dictSet r k' v) = if k' = k then some v else dlookup k r := by
  unfold dictSet
  by_cases hc : r.any (fun p => p.1 = k') = true
  · have hs : (dlookup k' r).isSome := (any_key_iff_dlookup k' r).mp hc
    simp [hc, dlookup_map_set, hs]
  · have hs : ¬ (dlookup k' r).isSome := fun h => hc ((any_key_iff_dlookup k' r).mpr h)
    have hnone : dlookup k' r = none := by
      cases h : dlookup k' r with
      | none => rfl
      | some w => exact absurd (by rw [h]; rfl) hs
    simp only [hc, if_false, Bool.false_eq_true, dlookup_append]
    by_cases hk : k' = k
    · subst hk; simp [hnone, dlookup]
    · cases h : dlookup k r with
      | none => simp [hk, dlookup, hnone, h, Ne.symm hk]
      | some w => simp [hk, h]

theorem not_mem_keys_dlookup {K V : Type} [DecidableEq K] {k : K} {d : List (K × V)}
    (h : k ∉ keys d) : dlookup k d = none := by
  induction d with
  | nil => rfl
  | cons p ps ih =>
    have h1 : ¬ p.1 = k := fun e => h (by simp [keys, e])
    have h2 : k ∉ keys ps := fun e => h (by simp [keys] at e ⊢; exact Or.inr e)
    simp [dlookup, h1, ih h2]

theorem dlookup_dictUpdate {K V : Type} [DecidableEq K] (k : K) (r d : List (K × V))
    (hd : (keys d).Nodup) :
    dlookup k (dictUpdate r d) =
      match dlookup k d with
      | some v => some v
      | none => dlookup k r := by
  induction d generalizing r with
  | nil => simp [dictUpdate, dlookup]
  | cons p ps ih =>
    have hcons : keys (p :: ps) = p.1 :: keys ps := rfl
    rw [hcons] at hd
    have hd1 : p.1 ∉ keys ps := (List.nodup_cons.mp hd).1
    have hd2 : (keys ps).Nodup := (List.nodup_cons.mp hd).2
    show dlookup k (dictUpdate (dictSet r p.1 p.2) ps) = _
    rw [ih (dictSet r p.1 p.2) hd2]
    by_cases hk : p.1 = k
    · subst hk
      have : dlookup p.1 ps = none := not_mem_keys_dlookup hd1
      simp [this, dlookup, dlookup_dictSet]
    · cases h : dlookup k ps with
      | none => simp [h, dlookup_dictSet, hk, dlookup, h]
      | some w => simp [h, dlookup, hk]

theorem dlookup_foldl_dictUpdate {K V : Type} [DecidableEq K] (k : K)
    (ds : List (List (K × V))) (r : List (K × V)) (h : ∀ d ∈ ds, (keys d).Nodup) :
    dlookup k (ds.foldl dictUpdate r) =
      match lookupLast ds k with
      | some v => some v
      | none => dlookup k r := by
  induction ds generalizing r with
  | nil => simp [lookupLast]
  | cons d rest ih =>
    show dlookup k (rest.foldl dictUpdate (dictUpdate r d)) = _
    rw [ih (dictUpdate r d) (fun x hx => h x (List.mem_cons_of_mem d hx))]
    rw [dlookup_dictUpdate k r d (h d (List.mem_cons_self d rest))]
    show _ = match lookupLast (d :: rest) k with
      | some v => some v
      | none => dlookup k r
    cases hrest : lookupLast rest k with
    | some v => simp [lookupLast, hrest]
    | none => cases hd : dlookup k d with
      | some v => simp [lookupLast, hrest, hd]
      | none => simp [lookupLast, hrest, hd]

/-- C2: for every sequence of maps (each with distinct keys, as Python
dictionaries have), `union` returns a single map in which, for each key,
the value is the one from the last map of the sequence containing that key
(a full overwrite of the whole value — the statement holds for an
arbitrary value type `V`, so nested maps are replaced wholesale, never
merged recursively); and the union of the empty sequence is the empty
map. -/
theorem union_last_map_wins {K V : Type} [DecidableEq K] :
    (∀ (ds : List (List (K × V))) (k : K), (∀ d ∈ ds, (keys d).Nodup) →
      dlookup k (union ds) = lookupLast ds k)
    ∧ union ([] : List (List (K × V))) = [] := by
  refine ⟨fun ds k h => ?_, rfl⟩
  cases ds with
  | nil => rfl
  | cons d rest =>
    show dlookup k (rest.foldl dictUpdate d) = _
    rw [dlookup_foldl_dictUpdate k rest d (fun x hx => h x (List.mem_cons_of_mem d hx))]
    show _ = match lookupLast rest k with
      | some v => some v
      | none => dlookup k d
    cases hrest : lookupLast rest k <;> simp [hrest]

/-- Witness for C2 at a concrete input: the key `"b"` occurs in both maps
and the union carries the second map's value `3` for it. -/
theorem union_last_map_wins_witness :
    dlookup "b" (union [[("a", (1 : Nat)), ("b", 2)], [("b", 3), ("c", 4)]]) =
      lookupLast [[("a", (1 : Nat)), ("b", 2)], [("b", 3), ("c", 4)]] "b"
    ∧ lookupLast [[("a", (1 : Nat)), ("b", 2)], [("b", 3), ("c", 4)]] "b" = some 3 :=
  ⟨union_last_map_wins.1 _ "b" (by decide), by decide⟩

/-! ## Lemmas about the layout balancer -/

/-- `ceilDiv` really is the ceiling of the exact division, i.e. what
`math.ceil(a / n)` computes on integers. -/
theorem ceilDiv_eq_ceil (a : Int) (n : Nat) (h : 0 < n) :
    ceilDiv a n = ⌈(a : ℚ) / (n : ℚ)⌉ := by
  have hb : (0 : Int) ≤ (n : Int) := by omega
  have key : ((-a).fdiv (n : Int)) = -⌈(a : ℚ) / (n : ℚ)⌉ := by
    have h3 : (-a).fdiv (n : Int) = (-a) / (n : Int) := by
      rw [Int.fdiv_eq_ediv _ hb]
    rw [h3, ← Rat.floor_intCast_div_natCast (-a) n]
    rw [show (((-a : Int)) : ℚ) / (n : ℚ) = -((a : ℚ) / (n : ℚ)) by push_cast; ring]
    exact Int.floor_neg
  unfold ceilDiv
  rw [key, neg_neg]

theorem map_assign_id (ps : List Panel) (w : Int) (h : ∀ p ∈ ps, p.span.isSome) :
    ps.map (fun p => if p.span.isNone then { p with span := some w } else p) = ps := by
  induction ps with
  | nil => rfl
  | cons p ps ih =>
    have hp : ¬ p.span.isNone = true := by
      have := h p (List.mem_cons_self p ps)
      cases hs : p.span <;> simp [hs] at this ⊢
    simp only [List.map_cons, if_neg hp]
    rw [ih (fun q hq => h q (List.mem_cons_of_mem p hq))]

theorem balance_id_of_spans_set (ps : List Panel) (h : ∀ p ∈ ps, p.span.isSome) :
    _balance_panels ps = ps :=
  map_assign_id ps (auto_span ps) h

theorem balance_spans_set (ps : List Panel) :
    ∀ p ∈ _balance_panels ps, p.span.isSome := by
  intro p hp
  unfold _balance_panels at hp
  rcases List.mem_map.mp hp with ⟨q, _, hq⟩
  by_cases h : q.span.isNone = true
  · rw [if_pos h] at hq; rw [← hq]; rfl
  · rw [if_neg h] at hq; rw [← hq]
    cases hs : q.span with
    | none => rw [hs] at h; exact absurd rfl h
    | some s => rfl

theorem balance_panels_length (ps : List Panel) :
    (_balance_panels ps).length = ps.length := by
  unfold _balance_panels; exact List.length_map ps _

theorem allotted_map_assign (ps : List Panel) (w : Int) :
    allotted_spans (ps.map (fun p => if p.span.isNone then { p with span := some w } else p)) =
      allotted_spans ps + ((no_span_set ps).length : Int) * w := by
  induction ps with
  | nil => simp [allotted_spans, no_span_set]
  | cons p ps ih =>
    by_cases h : p.span.isNone = true
    · have hs : p.span = none := by cases hs : p.span <;> simp [hs] at h ⊢
      simp only [List.map_cons, if_pos h, allotted_spans, List.map, List.sum_cons] at ih ⊢
      rw [ih]
      simp [no_span_set, List.filter_cons, h, hs]
      ring
    · simp only [List.map_cons, if_neg h, allotted_spans, List.map, List.sum_cons] at ih ⊢
      rw [ih]
      simp [no_span_set, List.filter_cons, h]
      ring

theorem allotted_balance (ps : List Panel) :
    allotted_spans (_balance_panels ps) =
      allotted_spans ps + ((no_span_set ps).length : Int) * auto_span ps :=
  allotted_map_assign ps (auto_span ps)

theorem zip_evolve_panels (vizs : List HasPanel) (qs : List Panel)
    (h : qs.length = vizs.length) :
    ((vizs.zip qs).map (fun vp => { vp.1 with panel := vp.2 })).map (fun v => v.panel) = qs := by
  induction vizs generalizing qs with
  | nil => cases qs with
    | nil => rfl
    | cons q qs => exact absurd h (by simp)
  | cons v vs ih =>
    cases qs with
    | nil => exact absurd h (by simp)
    | cons q qs =>
      simp only [List.zip_cons_cons, List.map_cons]
      rw [ih qs (by simpa using h)]

theorem balance_viz_panels (vizs : List HasPanel) :
    (_balance_visualizations vizs).map (fun v => v.panel) =
      _balance_panels (vizs.map (fun v => v.panel)) := by
  unfold _balance_visualizations
  exact zip_evolve_panels vizs _ (by rw [balance_panels_length, List.length_map])

theorem zip_self_evolve (vizs : List HasPanel) :
    ((vizs.zip (vizs.map (fun v => v.panel))).map (fun vp => { vp.1 with panel := vp.2 })) =
      vizs := by
  induction vizs with
  | nil => rfl
  | cons v vs ih => simp only [List.map_cons, List.zip_cons_cons, ih]

theorem balance_viz_id_of_spans_set (vizs : List HasPanel)
    (h : ∀ v ∈ vizs, v.panel.span.isSome) :
    _balance_visualizations vizs = vizs := by
  unfold _balance_visualizations
  rw [balance_id_of_spans_set (vizs.map (fun v => v.panel))
    (by intro p hp; rcases List.mem_map.mp hp with ⟨v, hv, rfl⟩; exact h v hv)]
  exact zip_self_evolve vizs

theorem iter_mkRow (vizs : List HasPanel) :
    (mkRow vizs).iter_panels = _balance_panels (vizs.map (fun v => v.panel)) := by
  show (_balance_visualizations vizs).map (fun v => v.panel) = _
  exact balance_viz_panels vizs

/-- C1: whenever at least one panel has an unset (auto) width, the
balancer replaces every auto panel's width by the identical value
`ceil((TOTAL_SPAN - explicit sum) / number of auto panels)` (and `ceilDiv`
is genuinely the ceiling of the exact division), leaves explicit-width
panels untouched and preserves order; in particular `[None, None, None]`
becomes `[4, 4, 4]`, `[6, None, None]` becomes `[6, 3, 3]`, and
`[5, None, None]` becomes `[5, 4, 4]`. -/
theorem balancer_assigns_uniform_ceil_width (ps : List Panel)
    (h : 0 < (no_span_set ps).length) :
    _balance_panels ps = ps.map (fun p =>
      if p.span.isNone then
        { p with span := some (ceilDiv (TOTAL_SPAN - allotted_spans ps)
            ((no_span_set ps).length : Int)) }
      else p)
    ∧ ceilDiv (TOTAL_SPAN - allotted_spans ps) ((no_span_set ps).length : Int) =
        ⌈((TOTAL_SPAN - allotted_spans ps : Int) : ℚ) / ((no_span_set ps).length : ℚ)⌉
    ∧ (_balance_panels [examplePanel none, examplePanel none, examplePanel none]).map
        (fun p => p.span) = [some 4, some 4, some 4]
    ∧ (_balance_panels [examplePanel (some 6), examplePanel none, examplePanel none]).map
        (fun p => p.span) = [some 6, some 3, some 3]
    ∧ (_balance_panels [examplePanel (some 5), examplePanel none, examplePanel none]).map
        (fun p => p.span) = [some 5, some 4, some 4] := by
  refine ⟨?_, ?_, by decide, by decide, by decide⟩
  · unfold _balance_panels auto_span
    rw [if_neg (Nat.pos_iff_ne_zero.mp h)]
  · rw [ceilDiv_eq_ceil _ _ h]

/-- Witness for C1 at `[None, None, None]`. -/
theorem balancer_assigns_uniform_ceil_width_witness :
    _balance_panels [examplePanel none, examplePanel none, examplePanel none] =
      [examplePanel none, examplePanel none, examplePanel none].map (fun p =>
        if p.span.isNone then
          { p with span := some (ceilDiv (TOTAL_SPAN -
              allotted_spans [examplePanel none, examplePanel none, examplePanel none])
            ((no_span_set [examplePanel none, examplePanel none, examplePanel none]).length : Int)) }
        else p) :=
  (balancer_assigns_uniform_ceil_width
    [examplePanel none, examplePanel none, examplePanel none] (by decide)).1

/-- C8: a sequence of panels in which every panel carries an explicit
width is returned unchanged by the balancer — no hypothesis about the sum
of the widths is needed, so over- or under-subscription is fine. -/
theorem balancer_pass_through_all_explicit (ps : List Panel)
    (h : ∀ p ∈ ps, p.span.isSome) :
    _balance_panels ps = ps :=
  balance_id_of_spans_set ps h

/-- Witness for C8 at `[3, 10]`, whose widths sum to 13 ≠ 12. -/
theorem balancer_pass_through_all_explicit_witness :
    _balance_panels [examplePanel (some 3), examplePanel (some 10)] =
      [examplePanel (some 3), examplePanel (some 10)]
    ∧ allotted_spans [examplePanel (some 3), examplePanel (some 10)] = 13 :=
  ⟨balancer_pass_through_all_explicit _ (by decide), by decide⟩

/-- C10: if the explicit widths already sum to 12 or more and at least one
panel is auto, the common width assigned to the auto panels is zero or
negative; the balancer still gives every panel a concrete width, just not
necessarily one in 1..12.  `[12, None]` becomes `[12, 0]`. -/
theorem balancer_oversubscribed_nonpositive (ps : List Panel)
    (h1 : 12 ≤ allotted_spans ps) (h2 : 0 < (no_span_set ps).length) :
    auto_span ps ≤ 0
    ∧ _balance_panels ps = ps.map (fun p =>
        if p.span.isNone then { p with span := some (auto_span ps) } else p)
    ∧ (∀ p ∈ _balance_panels ps, p.span.isSome)
    ∧ (_balance_panels [examplePanel (some 12), examplePanel none]).map
        (fun p => p.span) = [some 12, some 0] := by
  refine ⟨?_, rfl, balance_spans_set ps, by decide⟩
  unfold auto_span
  rw [if_neg (Nat.pos_iff_ne_zero.mp h2)]
  unfold ceilDiv
  have ha : (0 : Int) ≤ -(TOTAL_SPAN - allotted_spans ps) := by
    simp only [TOTAL_SPAN]; omega
  have hb : (0 : Int) ≤ ((no_span_set ps).length : Int) := by omega
  have := Int.fdiv_nonneg ha hb
  omega

/-- Witness for C10 at `[12, None]`. -/
theorem balancer_oversubscribed_nonpositive_witness :
    auto_span [examplePanel (some 12), examplePanel none] ≤ 0 :=
  (balancer_oversubscribed_nonpositive [examplePanel (some 12), examplePanel none]
    (by decide) (by decide)).1

/-- C4 is false as stated: the row constructed from panels with widths
`[5, None, None]` has widths `[5, 4, 4]`, which sum to 13, not 12. -/
theorem row_span_sum_counterexample :
    allotted_spans ((mkRow [exampleViz (examplePanel (some 5)),
        exampleViz (examplePanel none), exampleViz (examplePanel none)]).iter_panels) = 13
    ∧ (13 : Int) ≠ TOTAL_SPAN := ⟨by decide, by decide⟩

/-- C4 amended: after construction every panel of a row has a concrete
width; when at least one panel is auto, the widths sum to exactly 12 if
and only if the number of auto panels divides `12 - explicit sum`; when
there is no auto panel the sum is just the explicit sum (12 exactly when
the caller made it so); otherwise the sum differs from 12. -/
theorem row_span_sum_amended (vizs : List HasPanel) :
    (∀ p ∈ (mkRow vizs).iter_panels, p.span.isSome)
    ∧ (0 < (no_span_set (vizs.map (fun v => v.panel))).length →
        (allotted_spans ((mkRow vizs).iter_panels) = TOTAL_SPAN ↔
          ((no_span_set (vizs.map (fun v => v.panel))).length : Int) ∣
            (TOTAL_SPAN - allotted_spans (vizs.map (fun v => v.panel)))))
    ∧ ((no_span_set (vizs.map (fun v => v.panel))).length = 0 →
        allotted_spans ((mkRow vizs).iter_panels) =
          allotted_spans (vizs.map (fun v => v.panel))) := by
  rw [iter_mkRow]
  set ps := vizs.map (fun v => v.panel) with hps
  refine ⟨balance_spans_set ps, fun hn => ⟨fun hsum => ?_, fun hdvd => ?_⟩, fun hz => ?_⟩
  · -- necessity: a 12-sum forces the balanced remainder to be the exact
    -- multiple n * auto_span, i.e. n divides 12 - explicit sum
    rw [allotted_balance] at hsum
    exact ⟨auto_span ps, by linarith⟩
  · rcases hdvd with ⟨k, hk⟩
    have hw : auto_span ps = k := by
      unfold auto_span
      rw [if_neg (Nat.pos_iff_ne_zero.mp hn), hk]
      unfold ceilDiv
      rw [show -(((no_span_set ps).length : Int) * k) = ((no_span_set ps).length : Int) * (-k) by ring]
      rw [Int.mul_fdiv_cancel_left _ (by omega : ((no_span_set ps).length : Int) ≠ 0)]
      ring
    rw [allotted_balance, hw, ← hk]
    ring
  · have hall : ∀ p ∈ ps, p.span.isSome := by
      intro p hp
      have hfil : (no_span_set ps) = [] := List.length_eq_zero.mp hz
      by_contra hcontra
      have hmem : p ∈ no_span_set ps := by
        unfold no_span_set
        refine List.mem_filter.mpr ⟨hp, ?_⟩
        cases hs : p.span with
        | none => rfl
        | some s => rw [hs] at hcontra; exact absurd rfl hcontra
      rw [hfil] at hmem
      exact absurd hmem (List.not_mem_nil p)
    rw [balance_id_of_spans_set ps hall]

/-- Witness for C4 amended at `[6, None, None]`: there are two auto panels
and 2 divides 12 - 6, so the row sums to exactly 12. -/
theorem row_span_sum_amended_witness :
    allotted_spans ((mkRow [exampleViz (examplePanel (some 6)),
        exampleViz (examplePanel none), exampleViz (examplePanel none)]).iter_panels) =
      TOTAL_SPAN :=
  ((row_span_sum_amended [exampleViz (examplePanel (some 6)),
      exampleViz (examplePanel none), exampleViz (examplePanel none)]).2.1
    (by decide)).mpr ⟨3, by decide⟩

/-! ## Rendering: keys and null emission -/

theorem keys_append {K V : Type} (a b : List (K × V)) :
    keys (a ++ b) = keys a ++ keys b :=
  List.map_append _ _ _

theorem dictSet_not_mem {K V : Type} [DecidableEq K] {r : List (K × V)} {k : K} (v : V)
    (h : k ∉ keys r) : dictSet r k v = r ++ [(k, v)] := by
  unfold dictSet
  have hany : ¬ (r.any (fun p => p.1 = k) = true) := by
    intro hc
    have h2 := (any_key_iff_dlookup k r).mp hc
    rw [not_mem_keys_dlookup h] at h2
    simp at h2
  rw [if_neg hany]

theorem dictUpdate_append_of_disjoint {K V : Type} [DecidableEq K] (r d : List (K × V))
    (hnd : (keys d).Nodup) (hdisj : ∀ k ∈ keys d, k ∉ keys r) :
    dictUpdate r d = r ++ d := by
  induction d generalizing r with
  | nil => simp [dictUpdate]
  | cons p d ih =>
    have hcons : keys (p :: d) = p.1 :: keys d := rfl
    rw [hcons] at hnd hdisj
    show dictUpdate (dictSet r p.1 p.2) d = _
    rw [dictSet_not_mem p.2 (hdisj p.1 (List.mem_cons_self _ _))]
    rw [ih (r ++ [(p.1, p.2)]) (List.nodup_cons.mp hnd).2 ?_]
    · rw [List.append_assoc]; rfl
    · intro k hk
      rw [keys_append]
      intro hmem
      rcases List.mem_append.mp hmem with h1 | h2
      · exact hdisj k (List.mem_cons_of_mem _ hk) h1
      · have hkp : k = p.1 := by simpa [keys] using h2
        exact (List.nodup_cons.mp hnd).1 (hkp ▸ hk)

theorem union2_append {K V : Type} [DecidableEq K] (a b : List (K × V))
    (hnd : (keys b).Nodup) (hdisj : ∀ k ∈ keys b, k ∉ keys a) :
    union [a, b] = a ++ b := by
  show dictUpdate a b = _
  exact dictUpdate_append_of_disjoint a b hnd hdisj

theorem union3_append {K V : Type} [DecidableEq K] (a b c : List (K × V))
    (hb : (keys b).Nodup) (hba : ∀ k ∈ keys b, k ∉ keys a)
    (hc : (keys c).Nodup) (hcab : ∀ k ∈ keys c, k ∉ keys (a ++ b)) :
    union [a, b, c] = (a ++ b) ++ c := by
  show dictUpdate (dictUpdate a b) c = _
  rw [dictUpdate_append_of_disjoint a b hb hba]
  exact dictUpdate_append_of_disjoint _ c hc hcab

theorem text_render_append (t : Text) :
    t.to_json_data = t.panel.to_json_data ++ t.own_fields := by
  apply union2_append
  · show textKeysList.Nodup
    decide
  · show ∀ k ∈ textKeysList, k ∉ panelKeysList
    decide

theorem alertList_render_append (a : AlertList) :
    a.to_json_data = a.panel.to_json_data ++ a.own_fields := by
  apply union2_append
  · show alertListKeysList.Nodup
    decide
  · show ∀ k ∈ alertListKeysList, k ∉ panelKeysList
    decide

theorem singleStat_render_append (s : SingleStat) :
    s.to_json_data = s.panel.to_json_data ++ s.own_fields := by
  apply union2_append
  · show singleStatKeysList.Nodup
    decide
  · show ∀ k ∈ singleStatKeysList, k ∉ panelKeysList
    decide

theorem table_render_append (t : Table) :
    t.to_json_data = t.panel.to_json_data ++ t.own_fields := by
  apply union2_append
  · show tableKeysList.Nodup
    decide
  · show ∀ k ∈ tableKeysList, k ∉ panelKeysList
    decide

theorem graph_render_append (g : Graph) :
    g.to_json_data = (g.panel.to_json_data ++ g.graph_object) ++ g.alerts := by
  refine union3_append _ _ _ ?_ ?_ ?_ ?_
  · show graphObjectKeysList.Nodup
    decide
  · show ∀ k ∈ graphObjectKeysList, k ∉ panelKeysList
    decide
  · simp only [Graph.alerts]
    cases g.alert with
    | none => show ([] : List String).Nodup; decide
    | some a => show (["alert"] : List String).Nodup; decide
  · simp only [Graph.alerts]
    cases g.alert with
    | none => show ∀ k ∈ ([] : List String), k ∉ panelKeysList ++ graphObjectKeysList; decide
    | some a =>
        show ∀ k ∈ (["alert"] : List String), k ∉ panelKeysList ++ graphObjectKeysList
        decide

/-- C6 is false as stated: `Graph.to_json_data` conditionally drops the
declared `alert` field — the rendered map of a graph without an alert has
no `"alert"` key at all, while the same graph with an alert set does carry
the key, so an unset field is omitted rather than emitted as null. -/
theorem render_omits_unset_alert_counterexample :
    "alert" ∉ keys (Graph.to_json_data exampleGraph)
    ∧ "alert" ∈ keys (Graph.to_json_data { exampleGraph with alert := some (.obj []) }) := by
  constructor
  · rw [graph_render_append]; decide
  · rw [graph_render_append]; decide

/-- C6 amended: rendering emits every declared field with an explicit null
value when unset — a rendered `Panel` always carries exactly the keys
title, id, links, span, transparent, editable, height, description, with
unset optional fields rendered as null (`optInt none = .nul`), and each
visualization's rendered map carries the panel keys followed by all of its
own declared keys — with the single exception of `Graph`'s `alert` field,
which is omitted entirely when unset and appended as a final `"alert"` key
when set. -/
theorem render_emits_all_fields_amended :
    (∀ p : Panel, keys p.to_json_data =
      ["title", "id", "links", "span", "transparent", "editable", "height", "description"])
    ∧ (∀ p : Panel,
        dlookup "id" p.to_json_data = some (optInt p.id)
        ∧ dlookup "span" p.to_json_data = some (optInt p.span)
        ∧ dlookup "height" p.to_json_data = some (optInt p.height)
        ∧ dlookup "description" p.to_json_data = some (optStr p.description))
    ∧ optInt none = JValue.nul ∧ optStr none = JValue.nul ∧ optJ none = JValue.nul
    ∧ (∀ g : Graph, keys g.to_json_data =
        ["title", "id", "links", "span", "transparent", "editable", "height", "description"]
        ++ ["aliasColors", "bars", "datasource", "error", "fill", "grid", "isNew", "legend",
            "lines", "linewidth", "minSpan", "nullPointMode", "percentage", "pointradius",
            "points", "renderer", "repeat", "seriesOverrides", "stack", "steppedLine",
            "targets", "timeFrom", "timeShift", "tooltip", "xaxis", "yaxes"]
        ++ (match g.alert with | none => [] | some _ => ["alert"]))
    ∧ (∀ g : Graph, dlookup "datasource" g.to_json_data = some (optJ g.dataSource))
    ∧ (∀ t : Text, keys t.to_json_data =
        ["title", "id", "links", "span", "transparent", "editable", "height", "description"]
        ++ ["content", "error", "mode"])
    ∧ (∀ a : AlertList, keys a.to_json_data =
        ["title", "id", "links", "span", "transparent", "editable", "height", "description"]
        ++ ["limit", "onlyAlertsOnDashboard", "show", "sortOrder", "stateFilter"])
    ∧ (∀ s : SingleStat, keys s.to_json_data =
        ["title", "id", "links", "span", "transparent", "editable", "height", "description"]
        ++ ["cacheTimeout", "colorBackground", "colorValue", "colors", "datasource",
            "decimals", "format", "gauge", "interval", "hideTimeOverride", "mappingType",
            "mappingTypes", "maxDataPoints", "minSpan", "nullPointMode", "nullText",
            "postfix", "postfixFontSize", "prefix", "prefixFontSize", "rangeMaps",
            "repeat", "sparkline", "targets", "thresholds", "valueFontSize", "valueMaps",
            "valueName", "timeFrom"])
    ∧ (∀ t : Table, keys t.to_json_data =
        ["title", "id", "links", "span", "transparent", "editable", "height", "description"]
        ++ ["columns", "datasource", "fontSize", "hideTimeOverride", "minSpan", "pageSize",
            "repeat", "scroll", "showHeader", "sort", "styles", "targets", "timeFrom",
            "transform"]) := by
  refine ⟨fun p => rfl, fun p => ⟨rfl, rfl, rfl, rfl⟩, rfl, rfl, rfl,
    fun g => ?_, fun g => ?_,
    fun t => by rw [text_render_append, keys_append]; rfl,
    fun a => by rw [alertList_render_append, keys_append]; rfl,
    fun s => by rw [singleStat_render_append, keys_append]; rfl,
    fun t => by rw [table_render_append, keys_append]; rfl⟩
  · rw [graph_render_append, keys_append, keys_append]
    simp only [Graph.alerts]
    cases g.alert <;> rfl
  · rw [graph_render_append]
    rfl

/-- C7: for every visualization type, the keys of the panel's rendered map
are disjoint from the keys of the visualization's own type-specific map,
so the union merge in rendering never overwrites a panel field with a
visualization field or vice versa. -/
theorem panel_viz_keys_disjoint :
    (∀ g : Graph, keysDisjoint (keys g.panel.to_json_data)
        (keys (g.graph_object ++ g.alerts)) = true)
    ∧ (∀ t : Text, keysDisjoint (keys t.panel.to_json_data) (keys t.own_fields) = true)
    ∧ (∀ a : AlertList, keysDisjoint (keys a.panel.to_json_data) (keys a.own_fields) = true)
    ∧ (∀ s : SingleStat, keysDisjoint (keys s.panel.to_json_data) (keys s.own_fields) = true)
    ∧ (∀ t : Table, keysDisjoint (keys t.panel.to_json_data) (keys t.own_fields) = true) := by
  refine ⟨fun g => ?_, fun t => rfl, fun a => rfl, fun s => rfl, fun t => rfl⟩
  cases g with
  | mk panel targets aliasColors bars dataSource error fill grid isNew legend lines
      lineWidth minSpan nullPointMode percentage pointRadius points renderer repeatOf
      seriesOverrides stack steppedLine timeFrom timeShift tooltip xAxis yAxes alert =>
    cases alert <;> rfl

/-- C9: `to_y_axes` passes a `YAxes` value through unchanged (with no
deprecation warning), converts a legacy two-element list/tuple into a
`YAxes` (emitting the deprecation warning, the `true` flag), and raises a
value error for every other input — both for any non-list/non-tuple value
and for any list/tuple whose length is not two. -/
theorem to_y_axes_shim (xs : List YAxis) (hxs : xs.length ≠ 2) :
    (∀ y : YAxes, to_y_axes (.yaxes y) = .ok (y, false))
    ∧ (∀ a b : YAxis, to_y_axes (.listArg [a, b]) = .ok ({ left := a, right := b }, true))
    ∧ (∀ v : JValue, ∃ e, to_y_axes (.otherArg v) = .error e)
    ∧ (∃ e, to_y_axes (.listArg xs) = .error e) := by
  refine ⟨fun y => rfl, fun a b => rfl, fun v => ⟨_, rfl⟩, ?_⟩
  match xs, hxs with
  | [], _ => exact ⟨_, rfl⟩
  | [a], _ => exact ⟨_, rfl⟩
  | [a, b], h => exact absurd rfl h
  | a :: b :: c :: t, _ => exact ⟨_, rfl⟩

/-- Witness for C9 at the empty legacy list. -/
theorem to_y_axes_shim_witness :
    ∃ e, to_y_axes (.listArg []) = .error e :=
  (to_y_axes_shim [] (by decide)).2.2.2

/-! ## Lemmas about the ID generator -/

theorem mem_le_idBound {ids : List Int} {x : Int} (h : x ∈ ids) :
    x.toNat ≤ idBound ids := by
  induction ids with
  | nil => cases h
  | cons y ys ih =>
    show x.toNat ≤ max y.toNat (idBound ys)
    rcases List.mem_cons.mp h with rfl | h2
    · exact le_max_left _ _
    · exact le_trans (ih h2) (le_max_right _ _)

theorem not_mem_of_idBound_lt {ids : List Int} {n : Nat} (h : idBound ids < n) :
    (n : Int) ∉ ids := by
  intro hmem
  have h2 := mem_le_idBound hmem
  rw [Int.toNat_natCast] at h2
  omega

theorem nextFreeAux_spec (ids : List Int) :
    ∀ fuel c, (∃ m : Nat, c ≤ m ∧ m < c + fuel ∧ (m : Int) ∉ ids) →
      IsLeastFree ids c (nextFreeAux ids fuel c) := by
  intro fuel
  induction fuel with
  | zero =>
    rintro c ⟨m, h1, h2, _⟩
    omega
  | succ fuel ih =>
    rintro c ⟨m, h1, h2, h3⟩
    by_cases hc : (c : Int) ∈ ids
    · have hmc : m ≠ c := fun e => h3 (by rw [e]; exact hc)
      have hrec := ih (c + 1) ⟨m, by omega, by omega, h3⟩
      obtain ⟨a1, a2, a3⟩ := hrec
      simp only [nextFreeAux, if_pos hc]
      refine ⟨by omega, a2, fun k hk1 hk2 => ?_⟩
      by_cases hkc : k = c
      · rw [hkc]; exact hc
      · exact a3 k (by omega) hk2
    · simp only [nextFreeAux, if_neg hc]
      exact ⟨le_refl c, hc, fun k hk1 hk2 => absurd hk2 (by omega)⟩

theorem nextFree_spec (ids : List Int) (c : Nat) (hc : 1 ≤ c) :
    IsLeastFree ids c (nextFree ids c) := by
  apply nextFreeAux_spec
  by_cases h : (c : Int) ∈ ids
  · have h2 := mem_le_idBound h
    rw [Int.toNat_natCast] at h2
    exact ⟨idBound ids + 1, by omega, by omega, not_mem_of_idBound_lt (by omega)⟩
  · exact ⟨c, le_refl c, by omega, h⟩

theorem isLeastFree_unique {ids : List Int} {c r1 r2 : Nat}
    (h1 : IsLeastFree ids c r1) (h2 : IsLeastFree ids c r2) : r1 = r2 := by
  obtain ⟨a1, a2, a3⟩ := h1
  obtain ⟨b1, b2, b3⟩ := h2
  rcases Nat.lt_trichotomy r1 r2 with h | h | h
  · exact absurd (b3 r1 a1 h) a2
  · exact h
  · exact absurd (a3 r2 b1 h) b2

theorem genInv_init (ids : List Int) : GenInv ids ids 1 := by
  refine ⟨le_refl 1, fun n hn => ⟨Or.inl, ?_⟩⟩
  rintro (h | h)
  · exact h
  · omega

theorem nextFree_eq_of_genInv {ids u : List Int} {c : Nat} (h : GenInv ids u c) :
    nextFree u 1 = nextFree ids c := by
  obtain ⟨hc, hiff⟩ := h
  obtain ⟨a1, a2, a3⟩ := nextFree_spec ids c hc
  have key : IsLeastFree u 1 (nextFree ids c) := by
    refine ⟨by omega, ?_, ?_⟩
    · intro hmem
      rcases (hiff _ (by omega)).mp hmem with h' | h'
      · exact a2 h'
      · omega
    · intro m hm1 hmlt
      refine (hiff m hm1).mpr ?_
      by_cases hmids : (m : Int) ∈ ids
      · exact Or.inl hmids
      · right
        by_contra hge
        exact hmids (a3 m (by omega) hmlt)
  exact isLeastFree_unique (nextFree_spec u 1 (le_refl 1)) key

theorem genInv_step {ids u : List Int} {c : Nat} (h : GenInv ids u c) :
    GenInv ids (((nextFree ids c : Nat) : Int) :: u) (nextFree ids c + 1) := by
  obtain ⟨hc, hiff⟩ := h
  obtain ⟨a1, a2, a3⟩ := nextFree_spec ids c hc
  refine ⟨by omega, fun n hn => ?_⟩
  constructor
  · intro hmem
    rcases List.mem_cons.mp hmem with he | hmem'
    · have : n = nextFree ids c := by exact_mod_cast he
      exact Or.inr (by omega)
    · rcases (hiff n hn).mp hmem' with h' | h'
      · exact Or.inl h'
      · exact Or.inr (by omega)
  · rintro (h' | h')
    · exact List.mem_cons_of_mem _ ((hiff n hn).mpr (Or.inl h'))
    · by_cases hnv : n = nextFree ids c
      · rw [hnv]; exact List.mem_cons_self _ _
      · by_cases hnc : n < c
        · exact List.mem_cons_of_mem _ ((hiff n hn).mpr (Or.inr hnc))
        · exact List.mem_cons_of_mem _
            ((hiff n hn).mpr (Or.inl (a3 n (by omega) (by omega))))

/-! ## The ID assignment pass matches its specification -/

theorem setIdsPanels_eq_spec (ids : List Int) (ps : List Panel) :
    ∀ (u : List Int) (c : Nat), GenInv ids u c →
      (setIdsPanels ids c ps).1 = (specAssignPanels u ps).1
      ∧ GenInv ids (specAssignPanels u ps).2 (setIdsPanels ids c ps).2 := by
  induction ps with
  | nil => exact fun u c h => ⟨rfl, h⟩
  | cons p ps ih =>
    intro u c h
    by_cases hid : truthyId p.id = true
    · simp only [setIdsPanels, specAssignPanels, hid, if_true]
      obtain ⟨e1, e2⟩ := ih u c h
      exact ⟨by rw [e1], e2⟩
    · simp only [setIdsPanels, specAssignPanels, hid, Bool.false_eq_true, if_false]
      have hveq : nextFree u 1 = nextFree ids c := nextFree_eq_of_genInv h
      obtain ⟨e1, e2⟩ :=
        ih (((nextFree ids c : Nat) : Int) :: u) (nextFree ids c + 1) (genInv_step h)
      rw [hveq]
      exact ⟨by rw [e1], e2⟩

theorem setIdsPanels_spans (ids : List Int) (ps : List Panel) :
    ∀ c, ((setIdsPanels ids c ps).1).map (fun p => p.span) = ps.map (fun p => p.span) := by
  induction ps with
  | nil => intro c; rfl
  | cons p ps ih =>
    intro c
    by_cases hid : truthyId p.id = true
    · simp only [setIdsPanels, hid, if_true, List.map_cons, ih]
    · simp only [setIdsPanels, hid, Bool.false_eq_true, if_false, List.map_cons, ih]

theorem setIdsPanels_length (ids : List Int) (ps : List Panel) (c : Nat) :
    (setIdsPanels ids c ps).1.length = ps.length := by
  have h := congrArg List.length (setIdsPanels_spans ids ps c)
  simpa using h

theorem forall_mem_of_map_field_eq {α β : Type} (f : α → β) {xs ys : List α}
    (he : xs.map f = ys.map f) (P : β → Prop) (h : ∀ y ∈ ys, P (f y)) :
    ∀ x ∈ xs, P (f x) := by
  intro x hx
  have hmem : f x ∈ ys.map f := he ▸ List.mem_map_of_mem f hx
  rcases List.mem_map.mp hmem with ⟨y, hy, hf⟩
  rw [← hf]
  exact h y hy

theorem zip_evolve_spans_some {vizs : List HasPanel} {qs : List Panel}
    (hq : ∀ q ∈ qs, q.span.isSome) :
    ∀ v ∈ (vizs.zip qs).map (fun vp => { vp.1 with panel := vp.2 }), v.panel.span.isSome := by
  intro v hv
  rcases List.mem_map.mp hv with ⟨vp, hvp, rfl⟩
  exact hq vp.2 (List.of_mem_zip hvp).2

theorem rowSetIds_eq_spec (ids : List Int) (r : Row) (u : List Int) (c : Nat)
    (h : GenInv ids u c) (hspans : ∀ v ∈ r.panels, v.panel.span.isSome) :
    (Row.set_ids ids c r).1 =
      { r with panels := ((r.panels.zip (specAssignPanels u r.iter_panels).1).map
          (fun pp => { pp.1 with panel := pp.2 })) }
    ∧ GenInv ids (specAssignPanels u r.iter_panels).2 (Row.set_ids ids c r).2 := by
  obtain ⟨e1, e2⟩ := setIdsPanels_eq_spec ids r.iter_panels u c h
  have base : ∀ y ∈ r.iter_panels, y.span.isSome := by
    intro y hy
    rcases List.mem_map.mp hy with ⟨v, hv, rfl⟩
    exact hspans v hv
  have hqs : ∀ q ∈ (setIdsPanels ids c r.iter_panels).1, q.span.isSome :=
    forall_mem_of_map_field_eq (fun (p : Panel) => p.span)
      (setIdsPanels_spans ids r.iter_panels c) (fun (s : Option Int) => s.isSome = true) base
  constructor
  · show ({ r with panels := (_balance_visualizations
      ((r.panels.zip (setIdsPanels ids c r.iter_panels).1).map
        (fun pp => { pp.1 with panel := pp.2 }))) } : Row) = _
    rw [balance_viz_id_of_spans_set _ (zip_evolve_spans_some hqs), e1]
  · exact e2

theorem setIdsRows_eq_spec (ids : List Int) (rs : List Row) :
    ∀ (u : List Int) (c : Nat), GenInv ids u c →
      (∀ r ∈ rs, ∀ v ∈ r.panels, v.panel.span.isSome) →
      (setIdsRows ids c rs).1 = (specRows u rs).1
      ∧ GenInv ids (specRows u rs).2 (setIdsRows ids c rs).2 := by
  induction rs with
  | nil => exact fun u c h _ => ⟨rfl, h⟩
  | cons r rs ih =>
    intro u c h hs
    obtain ⟨e1, e2⟩ := rowSetIds_eq_spec ids r u c h (hs r (List.mem_cons_self r rs))
    obtain ⟨f1, f2⟩ := ih (specAssignPanels u r.iter_panels).2 (Row.set_ids ids c r).2 e2
      (fun r' hr' => hs r' (List.mem_cons_of_mem r hr'))
    constructor
    · show (Row.set_ids ids c r).1 :: (setIdsRows ids (Row.set_ids ids c r).2 rs).1 = _
      rw [e1, f1]
      rfl
    · exact f2

theorem allSpansSet_rows {d : Dashboard} (h : allSpansSet d) :
    ∀ r ∈ d.rows, ∀ v ∈ r.panels, v.panel.span.isSome := by
  intro r hr v hv
  apply h
  unfold Dashboard.iter_panels
  exact List.mem_flatten.mpr
    ⟨r.iter_panels, List.mem_map_of_mem _ hr, List.mem_map_of_mem _ hv⟩

/-- C3: on every dashboard satisfying the row invariant (every panel has a
concrete span, which holds for all rows built through the balancing
constructor), `auto_panel_ids` coincides with the specification-side
assignment: every panel with a falsy id receives the smallest positive
integer not already used (by the pre-existing truthy ids or by earlier
assignments), in traversal order — rows in order, panels within each row
in order — while panels with truthy ids and the row structure are
untouched; in particular ids `[5, None, None]` become `[5, 1, 2]` and two
rows with one un-ID'd panel each become `[1, 2]`. -/
theorem auto_panel_ids_matches_spec :
    (∀ d : Dashboard, allSpansSet d → d.auto_panel_ids = specAutoPanelIds d)
    ∧ exampleDashboard1.auto_panel_ids.iter_panels.map (fun p => p.id) =
        [some 5, some 1, some 2]
    ∧ exampleDashboard2.auto_panel_ids.iter_panels.map (fun p => p.id) =
        [some 1, some 2] := by
  refine ⟨fun d h => ?_, by decide, by decide⟩
  obtain ⟨e1, _⟩ := setIdsRows_eq_spec (usedIds d) d.rows (usedIds d) 1
    (genInv_init (usedIds d)) (allSpansSet_rows h)
  show ({ d with rows := (setIdsRows (usedIds d) 1 d.rows).1 } : Dashboard) = _
  rw [e1]
  rfl

/-- Witness for C3 at the dashboard with panel ids `[5, None, None]`. -/
theorem auto_panel_ids_matches_spec_witness :
    exampleDashboard1.auto_panel_ids = specAutoPanelIds exampleDashboard1 :=
  auto_panel_ids_matches_spec.1 exampleDashboard1 (by decide)

/-! ## Idempotence of the ID assignment pass -/

theorem setIdsPanels_id_of_truthy (ids : List Int) (c : Nat) (ps : List Panel)
    (h : ∀ p ∈ ps, truthyId p.id) : setIdsPanels ids c ps = (ps, c) := by
  induction ps with
  | nil => rfl
  | cons p ps ih =>
    have hid : truthyId p.id = true := h p (List.mem_cons_self p ps)
    simp only [setIdsPanels, hid, if_true]
    rw [ih (fun q hq => h q (List.mem_cons_of_mem p hq))]

theorem setIdsPanels_ge_one (ids : List Int) (ps : List Panel) :
    ∀ c, 1 ≤ c → 1 ≤ (setIdsPanels ids c ps).2 := by
  induction ps with
  | nil => exact fun c hc => hc
  | cons p ps ih =>
    intro c hc
    by_cases hid : truthyId p.id = true
    · simp only [setIdsPanels, hid, if_true]
      exact ih c hc
    · simp only [setIdsPanels, hid, Bool.false_eq_true, if_false]
      exact ih (nextFree ids c + 1) (by omega)

theorem setIdsPanels_truthy_out (ids : List Int) (ps : List Panel) :
    ∀ c, 1 ≤ c → ∀ q ∈ (setIdsPanels ids c ps).1, truthyId q.id := by
  induction ps with
  | nil => intro c _ q hq; cases hq
  | cons p ps ih =>
    intro c hc q hq
    by_cases hid : truthyId p.id = true
    · simp only [setIdsPanels, hid, if_true] at hq
      rcases List.mem_cons.mp hq with rfl | hq2
      · exact hid
      · exact ih c hc q hq2
    · simp only [setIdsPanels, hid, Bool.false_eq_true, if_false] at hq
      rcases List.mem_cons.mp hq with rfl | hq2
      · have hv : c ≤ nextFree ids c := (nextFree_spec ids c hc).1
        show truthyId (some ((nextFree ids c : Nat) : Int)) = true
        simp only [truthyId, bne_iff_ne, ne_eq]
        intro he
        have : (nextFree ids c : Int) = 0 := he
        omega
      · exact ih (nextFree ids c + 1) (by omega) q hq2

theorem map_assign_ids (ps : List Panel) (w : Int) :
    (ps.map (fun p => if p.span.isNone then { p with span := some w } else p)).map
      (fun p => p.id) = ps.map (fun p => p.id) := by
  induction ps with
  | nil => rfl
  | cons p ps ih =>
    by_cases h : p.span.isNone = true
    · simp only [List.map_cons, if_pos h, ih]
    · simp only [List.map_cons, if_neg h, ih]

theorem balance_panels_ids (ps : List Panel) :
    (_balance_panels ps).map (fun p => p.id) = ps.map (fun p => p.id) :=
  map_assign_ids ps (auto_span ps)

theorem balance_viz_panel_ids (vizs : List HasPanel) :
    (_balance_visualizations vizs).map (fun v => v.panel.id) =
      vizs.map (fun v => v.panel.id) := by
  have h1 : (_balance_visualizations vizs).map (fun v => v.panel.id) =
      ((_balance_visualizations vizs).map (fun v => v.panel)).map (fun p => p.id) := by
    rw [List.map_map]; rfl
  have h2 : vizs.map (fun v => v.panel.id) =
      (vizs.map (fun v => v.panel)).map (fun p => p.id) := by
    rw [List.map_map]; rfl
  rw [h1, h2, balance_viz_panels, balance_panels_ids]

theorem balance_viz_spans_some (vizs : List HasPanel) :
    ∀ v ∈ _balance_visualizations vizs, v.panel.span.isSome := by
  intro v hv
  have hmem : v.panel ∈ (_balance_visualizations vizs).map (fun v => v.panel) :=
    List.mem_map_of_mem _ hv
  rw [balance_viz_panels] at hmem
  exact balance_spans_set _ _ hmem

theorem row_set_ids_id (ids : List Int) (c : Nat) (r : Row)
    (h : ∀ v ∈ r.panels, truthyId v.panel.id ∧ v.panel.span.isSome) :
    Row.set_ids ids c r = (r, c) := by
  have htruthy : ∀ p ∈ r.iter_panels, truthyId p.id := by
    intro p hp
    rcases List.mem_map.mp hp with ⟨v, hv, rfl⟩
    exact (h v hv).1
  unfold Row.set_ids
  rw [setIdsPanels_id_of_truthy ids c r.iter_panels htruthy]
  show ({ r with panels := (_balance_visualizations
    ((r.panels.zip (r.panels.map (fun v => v.panel))).map
      (fun pp => { pp.1 with panel := pp.2 }))) }, c) = (r, c)
  rw [zip_self_evolve r.panels,
    balance_viz_id_of_spans_set r.panels (fun v hv => (h v hv).2)]

theorem setIdsRows_id_of_truthy (ids : List Int) (rs : List Row) :
    ∀ c, (∀ r ∈ rs, ∀ v ∈ r.panels, truthyId v.panel.id ∧ v.panel.span.isSome) →
      setIdsRows ids c rs = (rs, c) := by
  induction rs with
  | nil => intro c _; rfl
  | cons r rs ih =>
    intro c h
    show ((Row.set_ids ids c r).1 :: (setIdsRows ids (Row.set_ids ids c r).2 rs).1,
        (setIdsRows ids (Row.set_ids ids c r).2 rs).2) = _
    rw [row_set_ids_id ids c r (h r (List.mem_cons_self r rs))]
    show (r :: (setIdsRows ids c rs).1, (setIdsRows ids c rs).2) = _
    rw [ih c (fun r' hr' => h r' (List.mem_cons_of_mem r hr'))]

theorem setIdsRows_out (ids : List Int) (rs : List Row) :
    ∀ c, 1 ≤ c →
      (∀ r' ∈ (setIdsRows ids c rs).1, ∀ v ∈ r'.panels,
        truthyId v.panel.id ∧ v.panel.span.isSome)
      ∧ 1 ≤ (setIdsRows ids c rs).2 := by
  induction rs with
  | nil => intro c hc; exact ⟨fun r' hr' => absurd hr' (List.not_mem_nil r'), hc⟩
  | cons r rs ih =>
    intro c hc
    have hc2 : 1 ≤ (Row.set_ids ids c r).2 :=
      setIdsPanels_ge_one ids r.iter_panels c hc
    obtain ⟨htail, hcend⟩ := ih (Row.set_ids ids c r).2 hc2
    constructor
    · intro r' hr' v hv
      have hshape : (setIdsRows ids c (r :: rs)).1 =
          (Row.set_ids ids c r).1 :: (setIdsRows ids (Row.set_ids ids c r).2 rs).1 := rfl
      rw [hshape] at hr'
      rcases List.mem_cons.mp hr' with rfl | hr2
      · -- the head row: panels are the balanced, id-assigned panels
        have hv2 : v ∈ _balance_visualizations
            ((r.panels.zip (setIdsPanels ids c r.iter_panels).1).map
              (fun pp => { pp.1 with panel := pp.2 })) := hv
        constructor
        · -- truthy: balancing preserves ids, and assignment makes them truthy
          have base : ∀ y ∈ (r.panels.zip (setIdsPanels ids c r.iter_panels).1).map
              (fun pp => { pp.1 with panel := pp.2 }), truthyId y.panel.id := by
            intro y hy
            rcases List.mem_map.mp hy with ⟨pp, hpp, rfl⟩
            exact setIdsPanels_truthy_out ids r.iter_panels c hc pp.2
              (List.of_mem_zip hpp).2
          exact forall_mem_of_map_field_eq (fun (v : HasPanel) => v.panel.id)
            (balance_viz_panel_ids _) (fun i => truthyId i = true) base v hv2
        · exact balance_viz_spans_some _ v hv2
      · exact htail r' hr2 v hv
    · exact hcend

/-- C5: `auto_panel_ids` is idempotent on every dashboard — after one
application every panel's id is a positive integer (truthy) and every
panel's span is concrete, so a second application passes every panel
through unchanged and rebuilds each row identically. -/
theorem auto_panel_ids_idempotent (d : Dashboard) :
    d.auto_panel_ids.auto_panel_ids = d.auto_panel_ids := by
  have hout := setIdsRows_out (usedIds d) d.rows 1 (le_refl 1)
  show ({ d with rows :=
      (setIdsRows (usedIds ({ d with rows := (setIdsRows (usedIds d) 1 d.rows).1 } : Dashboard))
        1 ((setIdsRows (usedIds d) 1 d.rows).1)).1 } : Dashboard) = Dashboard.auto_panel_ids d
  rw [setIdsRows_id_of_truthy
    (usedIds ({ d with rows := (setIdsRows (usedIds d) 1 d.rows).1 } : Dashboard))
    ((setIdsRows (usedIds d) 1 d.rows).1) 1 hout.1]
  rfl

end Grafanalib
